import Mathlib

/-!
Verification of the lisp-rs S-expression interpreter.

Shallow embedding of the lexer tokens, the parser (`src/parser.rs`) and the
tree-walking evaluator with its environment chain (`src/eval.rs`).

Modelling conventions:
* Rust `i64` values are modelled as `Int`; both division faults of the
  host (`/ 0` is "attempt to divide by zero", `i64::MIN / -1` is "attempt
  to divide with overflow") are modelled explicitly, as division is where
  fixed width matters for the verified claims; addition, subtraction and
  multiplication are left on unbounded integers (the spec leaves the
  fixed-width overflow policy of those operators an explicit open
  question).
* A Rust `panic` (index out of bounds, divide by zero) is not an `Err(..)`
  value of the `Result`: it is modelled by the distinguished error
  constructor `EvalErr.fault`, so that a returned error value and an
  uncatchable abort can be told apart.
* The shared mutable environment chain (`Rc<RefCell<Env>>`) is modelled as
  an arena (`Store = List Env`): an environment is addressed by its index,
  `Env.parent` holds the index of the parent. Cloning an `Rc` is sharing
  the index; `Env::extend` appends a fresh arena entry. In every store the
  program can build, a parent index is strictly smaller than the index of
  the child (the root is entry 0 with no parent, and `extend` appends at
  the end pointing backwards), so the lookup walk terminates.
* Recursion through user-defined functions is unbounded in the source, so
  the evaluator takes a fuel argument; `none` means the fuel ran out and
  stands for a still-running computation, never for any returned value.
-/

namespace LispRs

/-- Model of `Token` from src/lexer.rs. -/
inductive Token where
  | integer (n : Int)
  | symbol (s : String)
  | lparen
  | rparen
deriving DecidableEq, Repr

/-- Model of `Object` from src/parser.rs (also the value type of the evaluator). -/
inductive Object where
  | void
  | integer (n : Int)
  | bool (b : Bool)
  | symbol (s : String)
  | lambda (params : List String) (body : List Object)
  | list (items : List Object)

/-- Model of `ParseError` from src/parser.rs. -/
structure ParseError where
  err : String
deriving DecidableEq, Repr

/-- Rust `Debug` rendering of a `Token`, as used in the parser error
message `format!("Expected LParen, found {:?}", token)` (string escaping
inside symbol payloads is not reproduced). -/
def tokenDebug : Token → String
  | .integer n => "Integer(" ++ toString n ++ ")"
  | .symbol s => "Symbol(\"" ++ s ++ "\")"
  | .lparen => "LParen"
  | .rparen => "RParen"

/-- Rust `Debug` rendering of `Option<Token>`. -/
def optTokenDebug : Option Token → String
  | none => "None"
  | some t => "Some(" ++ tokenDebug t ++ ")"

/-- Rust `Debug` rendering of an `Object`, as used in the evaluator error
messages (string escaping inside payloads is not reproduced). -/
def objectDebug : Object → String
  | .void => "Void"
  | .integer n => "Integer(" ++ toString n ++ ")"
  | .bool b => "Bool(" ++ toString b ++ ")"
  | .symbol s => "Symbol(\"" ++ s ++ "\")"
  | .lambda ps body =>
      "Lambda(" ++ toString ps ++ ", " ++ toString (body.map fun _ => "·") ++ ")"
  | .list items => "List([" ++ toString (items.map fun _ => "·") ++ "])"

/-!
Parser (src/parser.rs).

`parse` reverses the token vector and `parse_list` pops from the tail of
that reversed vector, i.e. it consumes the tokens of the original sequence
front to back. The model therefore works on the original-order `List Token`
and takes its head where the source pops.

`parse_list` in the source reads:
* pop one token; it must be `LParen`, else
  `ParseError ("Expected LParen, found {:?}")`;
* `while !tokens.is_empty()` pop a token: integer and symbol tokens are
  appended to the current items, an `LParen` is pushed back and a recursive
  `parse_list` call parses the sub-list, an `RParen` returns
  `Ok(List(items))`;
* when the loop exits because the tokens ran out, the function falls
  through to a final `Ok(Object::List(list))` — the
  `"Insufficient tokens"` error constructed inside the loop is behind an
  `is_none` test that the loop guard has already excluded, so that branch
  is unreachable.

The recursion is not structural (the recursive call re-pushes the popped
`LParen`), so the model uses fuel; `none` = fuel ran out.
-/

/-- The loop of `parse_list`, processing the remaining tokens with the
accumulated items of the current list; `pl` is the recursive
`parse_list` call used for nested sub-lists. Returns the parsed object
together with the tokens left over after it. -/
def parseLoop (pl : List Token → Option (Except ParseError (Object × List Token))) :
    Nat → List Token → List Object → Option (Except ParseError (Object × List Token))
  | _, [], acc => some (.ok (.list acc.reverse, []))
  | 0, _ :: _, _ => none
  | fuel + 1, t :: rest, acc =>
    match t with
    | .integer n => parseLoop pl fuel rest (.integer n :: acc)
    | .symbol s => parseLoop pl fuel rest (.symbol s :: acc)
    | .lparen =>
      match pl (Token.lparen :: rest) with
      | none => none
      | some (.error e) => some (.error e)
      | some (.ok (sub, rest1)) => parseLoop pl fuel rest1 (sub :: acc)
    | .rparen => some (.ok (.list acc.reverse, rest))

/-- Model of `parse_list` from src/parser.rs. -/
def parseList : Nat → List Token → Option (Except ParseError (Object × List Token))
  | 0, _ => none
  | fuel + 1, tokens =>
    match tokens with
    | [] => some (.error ⟨"Expected LParen, found " ++ optTokenDebug none⟩)
    | t :: rest =>
      if t = Token.lparen then
        parseLoop (parseList fuel) fuel rest []
      else
        some (.error ⟨"Expected LParen, found " ++ optTokenDebug (some t)⟩)

/-- Model of `parse` from src/parser.rs (the leftover tokens of the outermost
`parse_list` call are discarded, as in the source). -/
def parse (fuel : Nat) (tokens : List Token) : Option (Except ParseError Object) :=
  match parseList fuel tokens with
  | none => none
  | some (.error e) => some (.error e)
  | some (.ok (obj, _)) => some (.ok obj)

/-!
Environment (src/eval.rs, `struct Env`).

Arena model of the `Rc<RefCell<Env>>` chain: `Store` is the list of all
environments ever created, an environment is addressed by its index.
-/

/-- Model of `Env` from src/eval.rs: the local bindings and an optional parent.
The `HashMap<String, Object>` is modelled as an association list whose
insert overwrites the existing key in place. -/
structure Env where
  vars : List (String × Object)
  parent : Option Nat

/-- The arena of every environment created so far. `Rc::clone` is sharing
an index; dropping is not modelled (entries stay in the arena). -/
abbrev Store := List Env

/-- Lookup in the local binding table (`self.vars.get(name)`). -/
def lookupVar : List (String × Object) → String → Option Object
  | [], _ => none
  | (k, v) :: rest, name => if k = name then some v else lookupVar rest name

/-- Model of `HashMap::insert`: overwrite the binding for the key if present, else
add it. -/
def insertVar : List (String × Object) → String → Object → List (String × Object)
  | [], name, val => [(name, val)]
  | (k, v) :: rest, name, val =>
    if k = name then (name, val) :: rest else (k, v) :: insertVar rest name val

/-- The recursion of `Env::get` walks the parent chain. In every store the
interpreter can build the parent index is strictly smaller than the child
index, so `id + 1` steps always suffice; the explicit step count keeps the
definition structurally recursive. -/
def envGetAux : Nat → Store → Nat → String → Option Object
  | 0, _, _, _ => none
  | steps + 1, st, id, name =>
    match st[id]? with
    | none => none
    | some e =>
      match lookupVar e.vars name with
      | some v => some v
      | none =>
        match e.parent with
        | none => none
        | some p => envGetAux steps st p name

/-- `Env::get` from src/eval.rs: look up locally, else delegate to the
parent chain. -/
def envGet (st : Store) (id : Nat) (name : String) : Option Object :=
  envGetAux (id + 1) st id name

/-- Model of `Env::set` from src/eval.rs: insert or overwrite in the local table of
environment `id` only. -/
def envSet : Store → Nat → String → Object → Store
  | [], _, _, _ => []
  | e :: rest, 0, name, val => { e with vars := insertVar e.vars name val } :: rest
  | e :: rest, id + 1, name, val => e :: envSet rest id name val

/-- Model of `Env::extend parent`: a fresh environment with empty local bindings
whose parent is `parent`. -/
def envExtend (parentId : Nat) : Env :=
  { vars := [], parent := some parentId }

/-- The store holding only the root environment created by `main`
(`Env::new()`). -/
def store0 : Store := [{ vars := [], parent := none }]

/-!
Evaluator (src/eval.rs).

`EvalErr.err` is an `Err(String)` of the Rust `Result`; `EvalErr.fault`
is a Rust panic (out-of-range index, divide by zero) — an abort, not a
returned error value.

Each helper receives the evaluator for sub-expressions as the function
argument `ev`; `eval fuel` passes itself at fuel decreased by one, which
keeps every definition structurally recursive (and hence computable by
the kernel). `none` propagates fuel exhaustion.
-/

/-- An evaluation outcome: a returned `Result` value or a panic. -/
inductive EvalErr where
  | err (msg : String)
  | fault (msg : String)
deriving DecidableEq, Repr

/-- Result of one evaluation: the `Result<Object, String>` (or panic) and
the store after its side effects. -/
abbrev EvalResult := Except EvalErr Object × Store

/-- The type of the recursive evaluation function passed to the helpers. -/
abbrev Evaluator := Object → Store → Nat → Option EvalResult

/-- Model of `eval_symbol` from src/eval.rs. -/
def evalSymbol (s : String) (st : Store) (envId : Nat) : Except EvalErr Object :=
  match envGet st envId s with
  | some v => .ok v
  | none => .error (.err ("Unbound symbol: " ++ s))

/-- The map/filter/collect of `eval_list` for a list whose head is not a
symbol: evaluate the items in order, drop `Ok(Void)` results, stop at the
first error; the survivors become a new `List`. -/
def evalManyFilter (ev : Evaluator) :
    List Object → Store → Nat → List Object → Option EvalResult
  | [], st, _, acc => some (.ok (.list acc.reverse), st)
  | o :: rest, st, envId, acc =>
    match ev o st envId with
    | none => none
    | some (.error e, st1) => some (.error e, st1)
    | some (.ok v, st1) =>
      match v with
      | .void => evalManyFilter ev rest st1 envId acc
      | _ => evalManyFilter ev rest st1 envId (v :: acc)

/-- The operator application at the end of `eval_binary_op`, after both
operands have been reduced to integers. Rust `i64` division panics on a
zero divisor ("attempt to divide by zero") and on the one overflowing
quotient `i64::MIN / -1` ("attempt to divide with overflow"), and
otherwise truncates toward zero (`Int.tdiv`). -/
def applyBinOp (operator : Object) (l r : Int) : Except EvalErr Object :=
  match operator with
  | .symbol s =>
    if s = "+" then .ok (.integer (l + r))
    else if s = "-" then .ok (.integer (l - r))
    else if s = "*" then .ok (.integer (l * r))
    else if s = "/" then
      if r = 0 then .error (.fault "attempt to divide by zero")
      else if l = -9223372036854775808 ∧ r = -1 then
        .error (.fault "attempt to divide with overflow")
      else .ok (.integer (Int.tdiv l r))
    else if s = "<" then .ok (.bool (decide (l < r)))
    else if s = ">" then .ok (.bool (decide (l > r)))
    else if s = "=" then .ok (.bool (decide (l = r)))
    else if s = "!=" then .ok (.bool (decide (l ≠ r)))
    else .error (.err ("Invalid infix operator: " ++ s))
  | _ => .error (.err "Operator must be a symbol")

/-- Model of `eval_binary_op` from src/eval.rs: exactly 3 items, evaluate both
operands left to right, then check left, then right, for being an
integer. -/
def evalBinaryOp (ev : Evaluator) (list : List Object) (st : Store) (envId : Nat) :
    Option EvalResult :=
  match list with
  | [operator, e1, e2] =>
    match ev e1 st envId with
    | none => none
    | some (.error e, st1) => some (.error e, st1)
    | some (.ok left, st1) =>
      match ev e2 st1 envId with
      | none => none
      | some (.error e, st2) => some (.error e, st2)
      | some (.ok right, st2) =>
        match left with
        | .integer lv =>
          match right with
          | .integer rv => some (applyBinOp operator lv rv, st2)
          | _ => some (.error (.err ("Right operand must be an integer " ++
              objectDebug right)), st2)
        | _ => some (.error (.err ("Left operand must be an integer " ++
            objectDebug left)), st2)
  | _ => some (.error (.err "Invalid number of arguments for infix operator"), st)

/-- Model of `eval_define` from src/eval.rs: exactly 3 items, the second a symbol,
evaluate the third in the current environment, bind via `env.set`, return
`Void`. -/
def evalDefine (ev : Evaluator) (list : List Object) (st : Store) (envId : Nat) :
    Option EvalResult :=
  match list with
  | [_, s1, e2] =>
    match s1 with
    | .symbol sym =>
      match ev e2 st envId with
      | none => none
      | some (.error e, st1) => some (.error e, st1)
      | some (.ok val, st1) => some (.ok .void, envSet st1 envId sym val)
    | _ => some (.error (.err "Invalid define"), st)
  | _ => some (.error (.err "Invalid number of arguments for define"), st)

/-- Model of `eval_if` from src/eval.rs: exactly 4 items, the condition must reduce
to a boolean, then evaluate only the taken branch. -/
def evalIf (ev : Evaluator) (list : List Object) (st : Store) (envId : Nat) :
    Option EvalResult :=
  match list with
  | [_, c, t, e] =>
    match ev c st envId with
    | none => none
    | some (.error er, st1) => some (.error er, st1)
    | some (.ok condObj, st1) =>
      match condObj with
      | .bool b => ev (if b then t else e) st1 envId
      | _ => some (.error (.err "Condition must be boolean"), st1)
  | _ => some (.error (.err "Invalid number of arguments for if statement"), st)

/-- The params extraction of `eval_function_definition`: every element of
the params list must be a symbol; the first non-symbol yields the error. -/
def collectParams : List Object → Except EvalErr (List String)
  | [] => .ok []
  | .symbol s :: rest =>
    match collectParams rest with
    | .ok names => .ok (s :: names)
    | .error e => .error e
  | _ :: _ => .error (.err "Invalid lambda parameter")

/-- Model of `eval_function_definition` from src/eval.rs. The source indexes
`list[1]` and `list[2]` without a length check: a missing element is the
out-of-bounds panic, items past `list[2]` are never read. The params are
extracted (and their error raised) before `list[2]` is touched. Note the
`"Invalid lambad"` typo is the source string. -/
def evalFunctionDefinition (list : List Object) : Except EvalErr Object :=
  match list[1]? with
  | none => .error (.fault "index out of bounds: the len is 1 but the index is 1")
  | some p =>
    match p with
    | .list paramObjs =>
      match collectParams paramObjs with
      | .error e => .error e
      | .ok params =>
        match list[2]? with
        | none => .error (.fault "index out of bounds: the len is 2 but the index is 2")
        | some b =>
          match b with
          | .list body => .ok (.lambda params body)
          | _ => .error (.err "Invalid lambad")
    | _ => .error (.err "Invalid lambda")

/-- The argument loop of `eval_function_call`:
`for (i, param) in params.iter().enumerate()` reads `list[i + 1]` (a panic
when out of range), evaluates it in the caller environment `envId`, and
binds it in the new environment `newId`. Arguments beyond the params are
never read. -/
def bindArgs (ev : Evaluator) :
    List String → Nat → List Object → Store → Nat → Nat →
    Option (Except EvalErr Unit × Store)
  | [], _, _, st, _, _ => some (.ok (), st)
  | param :: rest, i, list, st, envId, newId =>
    match list[i + 1]? with
    | none => some (.error (.fault ("index out of bounds: the len is " ++
        toString list.length ++ " but the index is " ++ toString (i + 1))), st)
    | some arg =>
      match ev arg st envId with
      | none => none
      | some (.error e, st1) => some (.error e, st1)
      | some (.ok val, st1) =>
        bindArgs ev rest (i + 1) list (envSet st1 newId param val) envId newId

/-- Model of `eval_function_call` from src/eval.rs: resolve the head symbol in the
call-site environment; it must be a `Lambda`; extend the call-site
environment with a fresh child, bind the evaluated arguments there, then
evaluate the body (re-wrapped as a `List`) in the child. -/
def evalFunctionCall (ev : Evaluator) (s : String) (list : List Object)
    (st : Store) (envId : Nat) : Option EvalResult :=
  match envGet st envId s with
  | none => some (.error (.err ("Unbound symbol: " ++ s)), st)
  | some lam =>
    match lam with
    | .lambda params body =>
      let newId := st.length
      let st1 := st ++ [envExtend envId]
      match bindArgs ev params 0 list st1 envId newId with
      | none => none
      | some (.error e, st2) => some (.error e, st2)
      | some (.ok _, st2) => ev (.list body) st2 newId
    | _ => some (.error (.err ("Not a lambda: " ++ s)), st)

/-- Model of `eval_list` from src/eval.rs: `&list[0]` panics on an empty list;
a symbol head dispatches on the special forms, any other head triggers
the element-wise map/filter evaluation. -/
def evalList (ev : Evaluator) (list : List Object) (st : Store) (envId : Nat) :
    Option EvalResult :=
  match list[0]? with
  | none => some (.error (.fault "index out of bounds: the len is 0 but the index is 0"), st)
  | some head =>
    match head with
    | .symbol s =>
      if s = "+" ∨ s = "-" ∨ s = "*" ∨ s = "/" ∨ s = "<" ∨ s = ">" ∨ s = "=" ∨ s = "!=" then
        evalBinaryOp ev list st envId
      else if s = "define" then evalDefine ev list st envId
      else if s = "if" then evalIf ev list st envId
      else if s = "lambda" then some (evalFunctionDefinition list, st)
      else evalFunctionCall ev s list st envId
    | _ => evalManyFilter ev list st envId []

/-- Model of `eval` from src/eval.rs, with fuel; `none` means the fuel ran out. -/
def eval : Nat → Object → Store → Nat → Option EvalResult
  | 0, _, _, _ => none
  | fuel + 1, obj, st, envId =>
    match obj with
    | .void => some (.ok .void, st)
    | .lambda _ _ => some (.ok .void, st)
    | .bool b => some (.ok (.bool b), st)
    | .integer n => some (.ok (.integer n), st)
    | .symbol s => some (evalSymbol s st envId, st)
    | .list list => evalList (eval fuel) list st envId

/-!
Concrete programs used by the claim theorems.
-/

/-- The store holding only the root environment plus a binding of `"x"`,
as left behind by `(define x 10)`. -/
def storeX : Store := [{ vars := [("x", .integer 10)], parent := none }]

/-- The body items of `(lambda (n) (if (< n 1) 1 (* n (fact (- n 1)))))`. -/
def factBody : List Object :=
  [.symbol "if",
    .list [.symbol "<", .symbol "n", .integer 1],
    .integer 1,
    .list [.symbol "*", .symbol "n",
      .list [.symbol "fact", .list [.symbol "-", .symbol "n", .integer 1]]]]

/-- The expression `(define fact (lambda (n) (if (< n 1) 1 (* n (fact (- n 1))))))`. -/
def defineFact : Object :=
  .list [.symbol "define", .symbol "fact",
    .list [.symbol "lambda", .list [.symbol "n"], .list factBody]]

/-- The root store after `(define fact ...)` has been evaluated. -/
def stFact : Store :=
  [{ vars := [("fact", .lambda ["n"] factBody)], parent := none }]

/-- A root store binding `f` to the two-parameter function
`(lambda (x y) (+ x y))`. -/
def stF2 : Store :=
  [{ vars := [("f", .lambda ["x", "y"] [.symbol "+", .symbol "x", .symbol "y"])],
     parent := none }]

/-- A root store binding `g` to `(lambda (x) ((define y 1) (+ x y)))`:
a body of one side-effecting define followed by one final expression. -/
def stG : Store :=
  [{ vars := [("g", .lambda ["x"]
       [.list [.symbol "define", .symbol "y", .integer 1],
        .list [.symbol "+", .symbol "x", .symbol "y"]])],
     parent := none }]

/-- Discriminator: is this object an `Integer` leaf. -/
def Object.isInteger : Object → Bool
  | .integer _ => true
  | _ => false

/-- Discriminator: is this object a `Bool` leaf. -/
def Object.isBool : Object → Bool
  | .bool _ => true
  | _ => false

/-!
Helper lemmas about the environment arena.
-/

/-- Inserting a binding makes it the one found by a local lookup. -/
theorem lookupVar_insertVar_self (vars : List (String × Object)) (name : String)
    (val : Object) : lookupVar (insertVar vars name val) name = some val := by
  induction vars with
  | nil => simp [insertVar, lookupVar]
  | cons kv rest ih =>
    obtain ⟨k, v⟩ := kv
    by_cases h : k = name
    · subst h
      simp [insertVar, lookupVar]
    · simp [insertVar, lookupVar, h, ih]

/-- `Env::set` on environment `id` leaves every other arena entry
untouched: a child never writes through to its parent. -/
theorem envSet_getElem_ne (st : Store) (id j : Nat) (name : String) (val : Object)
    (h : j ≠ id) : (envSet st id name val)[j]? = st[j]? := by
  induction st generalizing id j with
  | nil => rfl
  | cons e rest ih =>
    cases id with
    | zero =>
      cases j with
      | zero => exact absurd rfl h
      | succ j => simp [envSet]
    | succ id =>
      cases j with
      | zero => simp [envSet]
      | succ j => simpa [envSet] using ih id j (by omega)

/-- `Env::set` updates exactly the local table of the addressed entry. -/
theorem envSet_getElem_self (st : Store) (id : Nat) (name : String) (val : Object)
    (e : Env) (h : st[id]? = some e) :
    (envSet st id name val)[id]? = some { e with vars := insertVar e.vars name val } := by
  induction st generalizing id with
  | nil => simp at h
  | cons e0 rest ih =>
    cases id with
    | zero =>
      simp at h
      subst h
      simp [envSet]
    | succ id =>
      simp at h
      simpa [envSet] using ih id h

/-- After `env.set name val` on entry `id`, `env.get name` on `id`
returns `val`. -/
theorem envGet_envSet_self (st : Store) (id : Nat) (name : String) (val : Object)
    (e : Env) (h : st[id]? = some e) :
    envGet (envSet st id name val) id name = some val := by
  simp [envGet, envGetAux, envSet_getElem_self st id name val e h,
    lookupVar_insertVar_self]

/-!
Claim theorems.
-/

/-- Claim C1: the spec demands that a token sequence beginning with an
open-parenthesis but exhausted before the matching close-parenthesis is a
`ParseError` ("insufficient tokens"), never an `Ok` wrapping the
incomplete list. The code violates this: its loop guard
`while !tokens.is_empty()` makes the in-loop "Insufficient tokens" branch
unreachable, and the fall-through returns `Ok(Object::List(list))`. At
the failing inputs `[LParen, Integer 1]` and `[LParen]` the parser
returns the incomplete list as a success. -/
theorem parse_exhausted_midlist_returns_ok :
    parse 10 [Token.lparen, Token.integer 1] = some (.ok (.list [.integer 1])) ∧
    parse 10 [Token.lparen] = some (.ok (.list [])) :=
  ⟨rfl, rfl⟩

/-- Claim C5: the spec claims the parser never produces an `Expr`
containing an empty `List`, so the unguarded `items[0]` read of the list
evaluator is never reached with empty items. The code violates this: the
token stream of `()` parses to `Ok(List([]))`, and evaluating that empty
list is exactly the out-of-range `list[0]` fault. -/
theorem parse_empty_list_then_eval_faults :
    parse 10 [Token.lparen, Token.rparen] = some (.ok (.list [])) ∧
    eval 5 (.list []) store0 0 =
      some (.error (.fault "index out of bounds: the len is 0 but the index is 0"),
        store0) :=
  ⟨rfl, rfl⟩

/-- Claim C4 counterexample: evaluating `(/ 1 0)` is the host division
fault (a panic that aborts the evaluation), not an error value returned
up the call chain, refuting the claim that a zero divisor is surfaced as
a returned error value. -/
theorem division_by_zero_is_fault :
    eval 5 (.list [.symbol "/", .integer 1, .integer 0]) store0 0 =
      some (.error (.fault "attempt to divide by zero"), store0) :=
  rfl

/-- Claim C4 as amended: `(/ 7 2)` yields `Integer(3)` and division
truncates toward zero (`(/ -7 2)` yields `Integer(-3)`; in general a
divisor that is neither zero nor the overflowing pair
`i64::MIN / -1` yields the truncating quotient); a zero divisor is the
host divide-by-zero fault and `i64::MIN / -1` is the host
division-overflow fault — aborts, not silent wraparound and not error
values of the `Result`. -/
theorem eval_division_spec :
    (∀ (a b : Int), b ≠ 0 → ¬(a = -9223372036854775808 ∧ b = -1) →
      eval 5 (.list [.symbol "/", .integer a, .integer b]) store0 0 =
        some (.ok (.integer (Int.tdiv a b)), store0)) ∧
    eval 5 (.list [.symbol "/", .integer 7, .integer 2]) store0 0 =
      some (.ok (.integer 3), store0) ∧
    eval 5 (.list [.symbol "/", .integer (-7), .integer 2]) store0 0 =
      some (.ok (.integer (-3)), store0) ∧
    eval 5 (.list [.symbol "/", .integer 1, .integer 0]) store0 0 =
      some (.error (.fault "attempt to divide by zero"), store0) ∧
    eval 5 (.list [.symbol "/", .integer (-9223372036854775808), .integer (-1)])
      store0 0 =
      some (.error (.fault "attempt to divide with overflow"), store0) := by
  refine ⟨?_, rfl, rfl, rfl, rfl⟩
  intro a b hb hov
  simp [eval, evalList, evalBinaryOp, applyBinOp, hb, hov]

/-- Claim C4 witness: the general division clause applied at `(/ 9 4)`. -/
theorem eval_division_spec_witness :
    eval 5 (.list [.symbol "/", .integer 9, .integer 4]) store0 0 =
      some (.ok (.integer 2), store0) :=
  eval_division_spec.1 9 4 (by decide) (by decide)

/-- Claim C2: the spec demands an explicit `ArityError` when the number
of arguments of a user-function application differs from the number of
parameters, never an out-of-range indexing fault and never silent
truncation. The code violates this: `eval_function_call` binds parameters
by indexing `list[i + 1]` with no arity check, so with `f` bound to
`(lambda (x y) (+ x y))` the call `(f 1)` is an out-of-range index fault,
and `(f 1 2 3)` silently ignores the extra argument and succeeds. -/
theorem eval_function_call_arity_mismatch :
    (eval 10 (.list [.symbol "f", .integer 1]) stF2 0).map Prod.fst =
      some (.error (.fault "index out of bounds: the len is 2 but the index is 2")) ∧
    (eval 10 (.list [.symbol "f", .integer 1, .integer 2, .integer 3]) stF2 0).map
      Prod.fst = some (.ok (.integer 3)) :=
  ⟨rfl, rfl⟩

/-- Claim C3 counterexample: a `lambda` list with four items is accepted
(the fourth item is silently ignored), refuting the claim that any item
count other than three is an error. -/
theorem lambda_extra_items_accepted :
    eval 5 (.list [.symbol "lambda", .list [.symbol "x"], .list [.symbol "x"],
      .integer 99]) store0 0 = some (.ok (.lambda ["x"] [.symbol "x"]), store0) :=
  rfl

/-- Collecting a list of symbol leaves yields their names. -/
theorem collectParams_symbols (names : List String) :
    collectParams (names.map Object.symbol) = .ok names := by
  induction names with
  | nil => rfl
  | cons n rest ih => simp [collectParams, ih]

/-- Collecting a params list whose first non-symbol element is `bad`
yields the parameter error. -/
theorem collectParams_nonsymbol (pre : List String) (bad : Object) (rest : List Object)
    (h : ∀ s, bad ≠ Object.symbol s) :
    collectParams (pre.map Object.symbol ++ bad :: rest) =
      .error (.err "Invalid lambda parameter") := by
  induction pre with
  | nil =>
    cases bad with
    | symbol s => exact absurd rfl (h s)
    | void => rfl
    | integer n => rfl
    | bool b => rfl
    | lambda p b => rfl
    | list l => rfl
  | cons p ps ih => simp [collectParams, ih]

/-- Claim C3 as amended: evaluating a list headed by `lambda` reads only
items 1 and 2 and never evaluates the body (the result and the store are
independent of the evaluator and the store is returned unchanged): with a
params `List` of `Symbol` leaves and a `List` body it returns
`Lambda(params, body-items)`; a non-`List` params element is an error, a
non-`Symbol` parameter is an error, a non-`List` body element is an
error; but the item count is not checked — items beyond the third are
silently ignored, and with fewer than three items the missing index
access is an out-of-range fault rather than a returned error. -/
theorem eval_lambda_spec :
    (∀ (fuel : Nat) (rest : List Object) (st : Store) (envId : Nat),
      eval (fuel + 1) (.list (.symbol "lambda" :: rest)) st envId =
        some (evalFunctionDefinition (.symbol "lambda" :: rest), st)) ∧
    (∀ (names : List String) (body rest : List Object) (x : Object),
      evalFunctionDefinition
          (x :: .list (names.map Object.symbol) :: .list body :: rest) =
        .ok (.lambda names body)) ∧
    (∀ (x p : Object) (rest : List Object), (∀ l, p ≠ .list l) →
      evalFunctionDefinition (x :: p :: rest) = .error (.err "Invalid lambda")) ∧
    (∀ (x bad : Object) (pre : List String) (rest1 rest : List Object),
      (∀ s, bad ≠ .symbol s) →
      evalFunctionDefinition
          (x :: .list (pre.map Object.symbol ++ bad :: rest1) :: rest) =
        .error (.err "Invalid lambda parameter")) ∧
    (∀ (x b : Object) (names : List String) (rest : List Object),
      (∀ l, b ≠ .list l) →
      evalFunctionDefinition (x :: .list (names.map Object.symbol) :: b :: rest) =
        .error (.err "Invalid lambad")) ∧
    (∀ (x : Object), evalFunctionDefinition [x] =
      .error (.fault "index out of bounds: the len is 1 but the index is 1")) ∧
    (∀ (x : Object) (names : List String),
      evalFunctionDefinition [x, .list (names.map Object.symbol)] =
        .error (.fault "index out of bounds: the len is 2 but the index is 2")) := by
  refine ⟨?_, ?_, ?_, ?_, ?_, ?_, ?_⟩
  · intro fuel rest st envId
    simp [eval, evalList]
  · intro names body rest x
    simp [evalFunctionDefinition, collectParams_symbols]
  · intro x p rest h
    cases p with
    | list l => exact absurd rfl (h l)
    | void => simp [evalFunctionDefinition]
    | integer n => simp [evalFunctionDefinition]
    | bool b => simp [evalFunctionDefinition]
    | symbol s => simp [evalFunctionDefinition]
    | lambda ps b => simp [evalFunctionDefinition]
  · intro x bad pre rest1 rest h
    simp [evalFunctionDefinition, collectParams_nonsymbol pre bad rest1 h]
  · intro x b names rest h
    cases b with
    | list l => exact absurd rfl (h l)
    | void => simp [evalFunctionDefinition, collectParams_symbols]
    | integer n => simp [evalFunctionDefinition, collectParams_symbols]
    | bool b0 => simp [evalFunctionDefinition, collectParams_symbols]
    | symbol s => simp [evalFunctionDefinition, collectParams_symbols]
    | lambda ps bd => simp [evalFunctionDefinition, collectParams_symbols]
  · intro x
    simp [evalFunctionDefinition]
  · intro x names
    simp [evalFunctionDefinition, collectParams_symbols]

/-- Claim C3 witness: the amended clauses applied at concrete inputs. -/
theorem eval_lambda_spec_witness :
    eval 3 (.list [.symbol "lambda", .list [.symbol "x"], .list [.symbol "x"]])
      store0 0 = some (.ok (.lambda ["x"] [.symbol "x"]), store0) ∧
    evalFunctionDefinition [.symbol "lambda", .list [.symbol "x"], .list [.symbol "x"],
      .integer 99] = .ok (.lambda ["x"] [.symbol "x"]) ∧
    evalFunctionDefinition [.symbol "lambda", .integer 3, .list []] =
      .error (.err "Invalid lambda") ∧
    evalFunctionDefinition [.symbol "lambda", .list [.integer 5], .list []] =
      .error (.err "Invalid lambda parameter") ∧
    evalFunctionDefinition [.symbol "lambda", .list [.symbol "x"], .integer 7] =
      .error (.err "Invalid lambad") ∧
    evalFunctionDefinition [.symbol "lambda"] =
      .error (.fault "index out of bounds: the len is 1 but the index is 1") ∧
    evalFunctionDefinition [.symbol "lambda", .list [.symbol "x"]] =
      .error (.fault "index out of bounds: the len is 2 but the index is 2") := by
  refine ⟨?_, ?_, ?_, ?_, ?_, ?_, ?_⟩
  · exact eval_lambda_spec.1 2 [.list [.symbol "x"], .list [.symbol "x"]] store0 0
  · exact eval_lambda_spec.2.1 ["x"] [.symbol "x"] [.integer 99] (.symbol "lambda")
  · exact eval_lambda_spec.2.2.1 (.symbol "lambda") (.integer 3) [.list []] (by simp)
  · exact eval_lambda_spec.2.2.2.1 (.symbol "lambda") (.integer 5) [] [] [.list []]
      (by simp)
  · exact eval_lambda_spec.2.2.2.2.1 (.symbol "lambda") (.integer 7) ["x"] [] (by simp)
  · exact eval_lambda_spec.2.2.2.2.2.1 (.symbol "lambda")
  · exact eval_lambda_spec.2.2.2.2.2.2 (.symbol "lambda") ["x"]

/-- Claim C6: a function application resolves its head symbol in the
environment in effect at the call site and requires a `Lambda`
(`Unbound symbol` when absent, `Not a lambda` otherwise); each argument
is evaluated in the caller environment after the fresh child environment
(whose parent is the call-site environment) has been allocated; the body
is evaluated in that child; consequently a lambda bound under a name that
calls itself by that name succeeds: with `fact` defined as the recursive
factorial lambda, `(fact 5)` evaluates to `Integer(120)`. -/
theorem eval_function_call_spec :
    (∀ (fuel : Nat) (s : String) (rest : List Object) (st : Store) (envId : Nat),
      s ≠ "+" → s ≠ "-" → s ≠ "*" → s ≠ "/" → s ≠ "<" → s ≠ ">" → s ≠ "=" →
      s ≠ "!=" → s ≠ "define" → s ≠ "if" → s ≠ "lambda" →
      eval (fuel + 1) (.list (.symbol s :: rest)) st envId =
        evalFunctionCall (eval fuel) s (.symbol s :: rest) st envId) ∧
    (∀ (ev : Evaluator) (s : String) (list : List Object) (st : Store) (envId : Nat),
      envGet st envId s = none →
      evalFunctionCall ev s list st envId =
        some (.error (.err ("Unbound symbol: " ++ s)), st)) ∧
    (∀ (ev : Evaluator) (s : String) (list : List Object) (st : Store) (envId : Nat)
      (v : Object), envGet st envId s = some v → (∀ ps b, v ≠ .lambda ps b) →
      evalFunctionCall ev s list st envId =
        some (.error (.err ("Not a lambda: " ++ s)), st)) ∧
    (∀ (ev : Evaluator) (s : String) (arg : Object) (st : Store) (envId : Nat)
      (param : String) (body : List Object) (v : Object) (st2 : Store),
      envGet st envId s = some (.lambda [param] body) →
      ev arg (st ++ [envExtend envId]) envId = some (.ok v, st2) →
      evalFunctionCall ev s [.symbol s, arg] st envId =
        ev (.list body) (envSet st2 st.length param v) st.length) ∧
    eval 5 defineFact store0 0 = some (.ok .void, stFact) ∧
    (eval 100 (.list [.symbol "fact", .integer 5]) stFact 0).map Prod.fst =
      some (.ok (.integer 120)) := by
  refine ⟨?_, ?_, ?_, ?_, rfl, rfl⟩
  · intro fuel s rest st envId h1 h2 h3 h4 h5 h6 h7 h8 h9 h10 h11
    simp [eval, evalList, h1, h2, h3, h4, h5, h6, h7, h8, h9, h10, h11]
  · intro ev s list st envId h
    simp [evalFunctionCall, h]
  · intro ev s list st envId v h hv
    cases v with
    | lambda ps b => exact absurd rfl (hv ps b)
    | void => simp [evalFunctionCall, h]
    | integer n => simp [evalFunctionCall, h]
    | bool b => simp [evalFunctionCall, h]
    | symbol s1 => simp [evalFunctionCall, h]
    | list l => simp [evalFunctionCall, h]
  · intro ev s arg st envId param body v st2 h1 h2
    simp [evalFunctionCall, h1, bindArgs, h2]

/-- Claim C6 witness: the clauses applied at concrete inputs — `(h 1)`
with `h` unbound, `(x 1)` with `x` bound to an integer, and the
single-argument application step for `(fact 5)`. -/
theorem eval_function_call_spec_witness :
    eval 2 (.list [.symbol "h", .integer 1]) store0 0 =
      some (.error (.err "Unbound symbol: h"), store0) ∧
    evalFunctionCall (eval 1) "x" [.symbol "x", .integer 1] storeX 0 =
      some (.error (.err "Not a lambda: x"), storeX) ∧
    evalFunctionCall (eval 3) "fact" [.symbol "fact", .integer 5] stFact 0 =
      eval 3 (.list factBody)
        (envSet (stFact ++ [envExtend 0]) 1 "n" (.integer 5)) 1 := by
  refine ⟨?_, ?_, ?_⟩
  · have hd := eval_function_call_spec.1 1 "h" [.integer 1] store0 0
      (by decide) (by decide) (by decide) (by decide) (by decide) (by decide)
      (by decide) (by decide) (by decide) (by decide) (by decide)
    have hu := eval_function_call_spec.2.1 (eval 1) "h" [.symbol "h", .integer 1]
      store0 0 (by rfl)
    exact hd.trans hu
  · exact eval_function_call_spec.2.2.1 (eval 1) "x" [.symbol "x", .integer 1]
      storeX 0 (.integer 10) (by rfl) (by simp)
  · exact eval_function_call_spec.2.2.2.1 (eval 3) "fact" (.integer 5) stFact 0
      "n" factBody (.integer 5) (stFact ++ [envExtend 0]) (by rfl) (by rfl)

/-- Claim C7: a non-empty list whose head is not a symbol is evaluated
element-wise in the current environment, in order; every result equal to
`Void` is dropped, any error stops the walk, and the survivors are
returned wrapped as a new `List`. In particular a lambda body of
side-effecting defines followed by one final expression returns a
single-element list wrapping that survivor: `(g 2)` with
`g = (lambda (x) ((define y 1) (+ x y)))` yields `List([Integer(3)])`,
not the bare `Integer(3)`. -/
theorem eval_list_nonsymbol_head_spec :
    (∀ (fuel : Nat) (head : Object) (rest : List Object) (st : Store) (envId : Nat),
      (∀ s, head ≠ .symbol s) →
      eval (fuel + 1) (.list (head :: rest)) st envId =
        evalManyFilter (eval fuel) (head :: rest) st envId []) ∧
    (∀ (ev : Evaluator) (st : Store) (envId : Nat) (acc : List Object),
      evalManyFilter ev [] st envId acc = some (.ok (.list acc.reverse), st)) ∧
    (∀ (ev : Evaluator) (o : Object) (rest : List Object) (st st1 : Store)
      (envId : Nat) (acc : List Object), ev o st envId = some (.ok .void, st1) →
      evalManyFilter ev (o :: rest) st envId acc =
        evalManyFilter ev rest st1 envId acc) ∧
    (∀ (ev : Evaluator) (o : Object) (rest : List Object) (st st1 : Store)
      (envId : Nat) (acc : List Object) (v : Object),
      ev o st envId = some (.ok v, st1) → v ≠ .void →
      evalManyFilter ev (o :: rest) st envId acc =
        evalManyFilter ev rest st1 envId (v :: acc)) ∧
    (∀ (ev : Evaluator) (o : Object) (rest : List Object) (st st1 : Store)
      (envId : Nat) (acc : List Object) (e : EvalErr),
      ev o st envId = some (.error e, st1) →
      evalManyFilter ev (o :: rest) st envId acc = some (.error e, st1)) ∧
    (eval 50 (.list [.symbol "g", .integer 2]) stG 0).map Prod.fst =
      some (.ok (.list [.integer 3])) := by
  refine ⟨?_, ?_, ?_, ?_, ?_, rfl⟩
  · intro fuel head rest st envId h
    cases head with
    | symbol s => exact absurd rfl (h s)
    | void => simp [eval, evalList, evalManyFilter]
    | integer n => simp [eval, evalList, evalManyFilter]
    | bool b => simp [eval, evalList, evalManyFilter]
    | lambda ps b => simp [eval, evalList, evalManyFilter]
    | list l => simp [eval, evalList, evalManyFilter]
  · intro ev st envId acc
    rfl
  · intro ev o rest st st1 envId acc h
    simp [evalManyFilter, h]
  · intro ev o rest st st1 envId acc v h hv
    cases v with
    | void => exact absurd rfl hv
    | integer n => simp [evalManyFilter, h]
    | bool b => simp [evalManyFilter, h]
    | symbol s => simp [evalManyFilter, h]
    | lambda ps b => simp [evalManyFilter, h]
    | list l => simp [evalManyFilter, h]
  · intro ev o rest st st1 envId acc e h
    simp [evalManyFilter, h]

/-- Claim C7 witness: the clauses applied at concrete inputs — a
non-symbol head dispatches to the element-wise walk, a `Void` result is
dropped, a non-`Void` result is kept, an error stops the walk. -/
theorem eval_list_nonsymbol_head_spec_witness :
    eval 2 (.list [.integer 7]) store0 0 =
      evalManyFilter (eval 1) [.integer 7] store0 0 [] ∧
    evalManyFilter (eval 1) [.void] store0 0 [] =
      evalManyFilter (eval 1) ([] : List Object) store0 0 [] ∧
    evalManyFilter (eval 1) [.integer 7] store0 0 [] =
      evalManyFilter (eval 1) ([] : List Object) store0 0 [.integer 7] ∧
    evalManyFilter (eval 1) [.symbol "q"] store0 0 [] =
      some (.error (.err "Unbound symbol: q"), store0) := by
  refine ⟨?_, ?_, ?_, ?_⟩
  · exact eval_list_nonsymbol_head_spec.1 1 (.integer 7) [] store0 0 (by simp)
  · exact eval_list_nonsymbol_head_spec.2.2.1 (eval 1) .void [] store0 store0 0 []
      (by rfl)
  · exact eval_list_nonsymbol_head_spec.2.2.2.1 (eval 1) (.integer 7) [] store0
      store0 0 [] (.integer 7) (by rfl) (by simp)
  · exact eval_list_nonsymbol_head_spec.2.2.2.2.1 (eval 1) (.symbol "q") [] store0
      store0 0 [] (.err "Unbound symbol: q") (by rfl)

/-- Claim C8: a list headed by `if` requires exactly 4 items, else the
arity error; the condition must reduce to a `Bool`, else the type error,
raised with the side effects of the condition already committed; exactly
the taken branch is then evaluated (the result is the evaluation of that
branch alone, so the untaken branch is never evaluated) — concretely,
`(if true 1 (define x 10))` yields `Integer(1)` and leaves no binding of
`x` in the environment. -/
theorem eval_if_spec :
    (∀ (fuel : Nat) (rest : List Object) (st : Store) (envId : Nat),
      eval (fuel + 1) (.list (.symbol "if" :: rest)) st envId =
        evalIf (eval fuel) (.symbol "if" :: rest) st envId) ∧
    (∀ (ev : Evaluator) (list : List Object) (st : Store) (envId : Nat),
      list.length ≠ 4 → evalIf ev list st envId =
        some (.error (.err "Invalid number of arguments for if statement"), st)) ∧
    (∀ (ev : Evaluator) (i c t e : Object) (st st1 : Store) (envId : Nat)
      (v : Object), ev c st envId = some (.ok v, st1) → (∀ b, v ≠ .bool b) →
      evalIf ev [i, c, t, e] st envId =
        some (.error (.err "Condition must be boolean"), st1)) ∧
    (∀ (ev : Evaluator) (i c t e : Object) (st st1 : Store) (envId : Nat),
      ev c st envId = some (.ok (.bool true), st1) →
      evalIf ev [i, c, t, e] st envId = ev t st1 envId) ∧
    (∀ (ev : Evaluator) (i c t e : Object) (st st1 : Store) (envId : Nat),
      ev c st envId = some (.ok (.bool false), st1) →
      evalIf ev [i, c, t, e] st envId = ev e st1 envId) ∧
    eval 10 (.list [.symbol "if", .bool true, .integer 1,
      .list [.symbol "define", .symbol "x", .integer 10]]) store0 0 =
      some (.ok (.integer 1), store0) ∧
    envGet store0 0 "x" = none := by
  refine ⟨?_, ?_, ?_, ?_, ?_, rfl, rfl⟩
  · intro fuel rest st envId
    simp [eval, evalList]
  · intro ev list st envId h
    rcases list with _ | ⟨a, _ | ⟨b, _ | ⟨c, _ | ⟨d, _ | ⟨e, tl⟩⟩⟩⟩⟩
    · rfl
    · rfl
    · rfl
    · rfl
    · simp at h
    · rfl
  · intro ev i c t e st st1 envId v h hv
    cases v with
    | bool b => exact absurd rfl (hv b)
    | void => simp [evalIf, h]
    | integer n => simp [evalIf, h]
    | symbol s => simp [evalIf, h]
    | lambda ps b => simp [evalIf, h]
    | list l => simp [evalIf, h]
  · intro ev i c t e st st1 envId h
    simp [evalIf, h]
  · intro ev i c t e st st1 envId h
    simp [evalIf, h]

/-- Claim C8 witness: the clauses applied at concrete inputs — `(if)`
with too few items, a non-boolean condition, and both branch
directions. -/
theorem eval_if_spec_witness :
    eval 2 (.list [.symbol "if", .bool true, .integer 1]) store0 0 =
      some (.error (.err "Invalid number of arguments for if statement"), store0) ∧
    evalIf (eval 1) [.symbol "if", .integer 3, .integer 1, .integer 2] store0 0 =
      some (.error (.err "Condition must be boolean"), store0) ∧
    evalIf (eval 1) [.symbol "if", .bool true, .integer 1, .integer 2] store0 0 =
      eval 1 (.integer 1) store0 0 ∧
    evalIf (eval 1) [.symbol "if", .bool false, .integer 1, .integer 2] store0 0 =
      eval 1 (.integer 2) store0 0 := by
  refine ⟨?_, ?_, ?_, ?_⟩
  · have hd := eval_if_spec.1 1 [.bool true, .integer 1] store0 0
    have ha := eval_if_spec.2.1 (eval 1) [.symbol "if", .bool true, .integer 1]
      store0 0 (by simp)
    exact hd.trans ha
  · exact eval_if_spec.2.2.1 (eval 1) (.symbol "if") (.integer 3) (.integer 1)
      (.integer 2) store0 store0 0 (.integer 3) (by rfl) (by simp)
  · exact eval_if_spec.2.2.2.1 (eval 1) (.symbol "if") (.bool true) (.integer 1)
      (.integer 2) store0 store0 0 (by rfl)
  · exact eval_if_spec.2.2.2.2.1 (eval 1) (.symbol "if") (.bool false) (.integer 1)
      (.integer 2) store0 store0 0 (by rfl)

/-- Claim C9: a list headed by one of the binary-operator symbols
`+ - * / < > = !=` requires exactly 3 items, else the arity error (so
both `(+ 1)` and `(+ 1 2 3)` fail that way); the operands are evaluated
left to right (the right operand starts from the store the left one
produced); a non-integer operand is a type error naming the failing side;
a successful arithmetic application returns an `Integer` and a successful
comparison returns a `Bool`. -/
theorem eval_binary_op_spec :
    (∀ (fuel : Nat) (op : String) (rest : List Object) (st : Store) (envId : Nat),
      (op = "+" ∨ op = "-" ∨ op = "*" ∨ op = "/" ∨ op = "<" ∨ op = ">" ∨
        op = "=" ∨ op = "!=") →
      eval (fuel + 1) (.list (.symbol op :: rest)) st envId =
        evalBinaryOp (eval fuel) (.symbol op :: rest) st envId) ∧
    (∀ (ev : Evaluator) (list : List Object) (st : Store) (envId : Nat),
      list.length ≠ 3 → evalBinaryOp ev list st envId =
        some (.error (.err "Invalid number of arguments for infix operator"), st)) ∧
    (∀ (ev : Evaluator) (i a b : Object) (st st1 st2 : Store) (envId : Nat)
      (v1 v2 : Object), ev a st envId = some (.ok v1, st1) →
      ev b st1 envId = some (.ok v2, st2) → (∀ n, v1 ≠ .integer n) →
      evalBinaryOp ev [i, a, b] st envId =
        some (.error (.err ("Left operand must be an integer " ++ objectDebug v1)),
          st2)) ∧
    (∀ (ev : Evaluator) (i a b : Object) (st st1 st2 : Store) (envId : Nat)
      (n1 : Int) (v2 : Object), ev a st envId = some (.ok (.integer n1), st1) →
      ev b st1 envId = some (.ok v2, st2) → (∀ n, v2 ≠ .integer n) →
      evalBinaryOp ev [i, a, b] st envId =
        some (.error (.err ("Right operand must be an integer " ++ objectDebug v2)),
          st2)) ∧
    (∀ (ev : Evaluator) (op : String) (a b : Object) (st st2 : Store) (envId : Nat)
      (res : Object),
      evalBinaryOp ev [.symbol op, a, b] st envId = some (.ok res, st2) →
      ((op = "+" ∨ op = "-" ∨ op = "*" ∨ op = "/") → res.isInteger = true) ∧
      ((op = "<" ∨ op = ">" ∨ op = "=" ∨ op = "!=") → res.isBool = true)) ∧
    eval 5 (.list [.symbol "+", .integer 1]) store0 0 =
      some (.error (.err "Invalid number of arguments for infix operator"), store0) ∧
    eval 5 (.list [.symbol "+", .integer 1, .integer 2, .integer 3]) store0 0 =
      some (.error (.err "Invalid number of arguments for infix operator"), store0) ∧
    eval 5 (.list [.symbol "+", .integer 1, .integer 2]) store0 0 =
      some (.ok (.integer 3), store0) ∧
    eval 5 (.list [.symbol "<", .integer 1, .integer 2]) store0 0 =
      some (.ok (.bool true), store0) := by
  refine ⟨?_, ?_, ?_, ?_, ?_, rfl, rfl, rfl, rfl⟩
  · intro fuel op rest st envId h
    rcases h with h | h | h | h | h | h | h | h <;> subst h <;> simp [eval, evalList]
  · intro ev list st envId h
    rcases list with _ | ⟨a, _ | ⟨b, _ | ⟨c, _ | ⟨d, tl⟩⟩⟩⟩
    · rfl
    · rfl
    · rfl
    · simp at h
    · rfl
  · intro ev i a b st st1 st2 envId v1 v2 h1 h2 hv
    cases v1 with
    | integer n => exact absurd rfl (hv n)
    | void => simp [evalBinaryOp, h1, h2]
    | bool b0 => simp [evalBinaryOp, h1, h2]
    | symbol s => simp [evalBinaryOp, h1, h2]
    | lambda ps bd => simp [evalBinaryOp, h1, h2]
    | list l => simp [evalBinaryOp, h1, h2]
  · intro ev i a b st st1 st2 envId n1 v2 h1 h2 hv
    cases v2 with
    | integer n => exact absurd rfl (hv n)
    | void => simp [evalBinaryOp, h1, h2]
    | bool b0 => simp [evalBinaryOp, h1, h2]
    | symbol s => simp [evalBinaryOp, h1, h2]
    | lambda ps bd => simp [evalBinaryOp, h1, h2]
    | list l => simp [evalBinaryOp, h1, h2]
  · intro ev op a b st st2 envId res h
    cases hev1 : ev a st envId with
    | none => simp [evalBinaryOp, hev1] at h
    | some r1 =>
      obtain ⟨x1, s1⟩ := r1
      cases x1 with
      | error e => simp [evalBinaryOp, hev1] at h
      | ok left =>
        cases hev2 : ev b s1 envId with
        | none => simp [evalBinaryOp, hev1, hev2] at h
        | some r2 =>
          obtain ⟨x2, s2⟩ := r2
          cases x2 with
          | error e => simp [evalBinaryOp, hev1, hev2] at h
          | ok right =>
            cases left with
            | void => simp [evalBinaryOp, hev1, hev2] at h
            | bool b0 => simp [evalBinaryOp, hev1, hev2] at h
            | symbol s0 => simp [evalBinaryOp, hev1, hev2] at h
            | lambda ps bd => simp [evalBinaryOp, hev1, hev2] at h
            | list l0 => simp [evalBinaryOp, hev1, hev2] at h
            | integer lv =>
              cases right with
              | void => simp [evalBinaryOp, hev1, hev2] at h
              | bool b0 => simp [evalBinaryOp, hev1, hev2] at h
              | symbol s0 => simp [evalBinaryOp, hev1, hev2] at h
              | lambda ps bd => simp [evalBinaryOp, hev1, hev2] at h
              | list l0 => simp [evalBinaryOp, hev1, hev2] at h
              | integer rv =>
                simp only [evalBinaryOp, hev1, hev2, Option.some_inj,
                  Prod.mk.injEq] at h
                obtain ⟨hap, hst⟩ := h
                constructor
                · intro hop
                  rcases hop with h0 | h0 | h0 | h0
                  · subst h0
                    simp [applyBinOp] at hap
                    rw [← hap]
                    rfl
                  · subst h0
                    simp [applyBinOp] at hap
                    rw [← hap]
                    rfl
                  · subst h0
                    simp [applyBinOp] at hap
                    rw [← hap]
                    rfl
                  · subst h0
                    by_cases hrv : rv = 0
                    · simp [applyBinOp, hrv] at hap
                    · by_cases hov : lv = -9223372036854775808 ∧ rv = -1
                      · simp [applyBinOp, hrv, hov] at hap
                      · simp [applyBinOp, hrv, hov] at hap
                        rw [← hap]
                        rfl
                · intro hop
                  rcases hop with h0 | h0 | h0 | h0
                  · subst h0
                    simp [applyBinOp] at hap
                    rw [← hap]
                    rfl
                  · subst h0
                    simp [applyBinOp] at hap
                    rw [← hap]
                    rfl
                  · subst h0
                    simp [applyBinOp] at hap
                    rw [← hap]
                    rfl
                  · subst h0
                    simp [applyBinOp] at hap
                    rw [← hap]
                    rfl

/-- Claim C9 witness: the clauses applied at concrete inputs — dispatch
of `+`, too few operands, a boolean left operand, a boolean right
operand, and the result types of `(* 2 3)` and `(< 1 2)`. -/
theorem eval_binary_op_spec_witness :
    eval 2 (.list [.symbol "+", .integer 1, .integer 2]) store0 0 =
      evalBinaryOp (eval 1) [.symbol "+", .integer 1, .integer 2] store0 0 ∧
    evalBinaryOp (eval 1) [.symbol "+", .integer 1] store0 0 =
      some (.error (.err "Invalid number of arguments for infix operator"), store0) ∧
    evalBinaryOp (eval 1) [.symbol "+", .bool true, .integer 2] store0 0 =
      some (.error (.err ("Left operand must be an integer " ++
        objectDebug (.bool true))), store0) ∧
    evalBinaryOp (eval 1) [.symbol "+", .integer 1, .bool false] store0 0 =
      some (.error (.err ("Right operand must be an integer " ++
        objectDebug (.bool false))), store0) ∧
    Object.isInteger (.integer 6) = true ∧
    Object.isBool (.bool true) = true := by
  refine ⟨?_, ?_, ?_, ?_, ?_, ?_⟩
  · exact eval_binary_op_spec.1 1 "+" [.integer 1, .integer 2] store0 0 (Or.inl rfl)
  · exact eval_binary_op_spec.2.1 (eval 1) [.symbol "+", .integer 1] store0 0
      (by simp)
  · exact eval_binary_op_spec.2.2.1 (eval 1) (.symbol "+") (.bool true)
      (.integer 2) store0 store0 store0 0 (.bool true) (.integer 2) (by rfl)
      (by rfl) (by simp)
  · exact eval_binary_op_spec.2.2.2.1 (eval 1) (.symbol "+") (.integer 1)
      (.bool false) store0 store0 store0 0 1 (.bool false) (by rfl) (by rfl)
      (by simp)
  · exact (eval_binary_op_spec.2.2.2.2.1 (eval 1) "*" (.integer 2) (.integer 3)
      store0 store0 0 (.integer 6) (by rfl)).1 (Or.inr (Or.inr (Or.inl rfl)))
  · exact (eval_binary_op_spec.2.2.2.2.1 (eval 1) "<" (.integer 1) (.integer 2)
      store0 store0 0 (.bool true) (by rfl)).2 (Or.inl rfl)

/-- Claim C10: `(define sym v)` with exactly 3 items evaluates `v` in the
current environment and inserts the binding into the local table of the
current environment only — `Env::set` changes no other arena entry, so
the parent environment is unchanged — and returns `Void`; after a set the
symbol resolves to the bound value, a bound symbol evaluates to its
value, and a symbol bound nowhere in the chain fails with the unbound
error. Concretely `(define x 10)` then `x` yields `Integer(10)` and an
undefined symbol yields `Unbound symbol`. -/
theorem eval_define_spec :
    (∀ (fuel : Nat) (rest : List Object) (st : Store) (envId : Nat),
      eval (fuel + 1) (.list (.symbol "define" :: rest)) st envId =
        evalDefine (eval fuel) (.symbol "define" :: rest) st envId) ∧
    (∀ (ev : Evaluator) (sym : String) (v : Object) (st st1 : Store) (envId : Nat)
      (val : Object), ev v st envId = some (.ok val, st1) →
      evalDefine ev [.symbol "define", .symbol sym, v] st envId =
        some (.ok .void, envSet st1 envId sym val)) ∧
    (∀ (st : Store) (id : Nat) (name : String) (val : Object) (j : Nat), j ≠ id →
      (envSet st id name val)[j]? = st[j]?) ∧
    (∀ (st : Store) (id : Nat) (name : String) (val : Object) (e : Env),
      st[id]? = some e → envGet (envSet st id name val) id name = some val) ∧
    (∀ (fuel : Nat) (s : String) (st : Store) (envId : Nat) (v : Object),
      envGet st envId s = some v →
      eval (fuel + 1) (.symbol s) st envId = some (.ok v, st)) ∧
    (∀ (fuel : Nat) (s : String) (st : Store) (envId : Nat),
      envGet st envId s = none → eval (fuel + 1) (.symbol s) st envId =
        some (.error (.err ("Unbound symbol: " ++ s)), st)) ∧
    eval 5 (.list [.symbol "define", .symbol "x", .integer 10]) store0 0 =
      some (.ok .void, storeX) ∧
    eval 5 (.symbol "x") storeX 0 = some (.ok (.integer 10), storeX) ∧
    eval 5 (.symbol "zzz") storeX 0 =
      some (.error (.err "Unbound symbol: zzz"), storeX) := by
  refine ⟨?_, ?_, ?_, ?_, ?_, ?_, rfl, rfl, rfl⟩
  · intro fuel rest st envId
    simp [eval, evalList]
  · intro ev sym v st st1 envId val h
    simp [evalDefine, h]
  · intro st id name val j h
    exact envSet_getElem_ne st id j name val h
  · intro st id name val e h
    exact envGet_envSet_self st id name val e h
  · intro fuel s st envId v h
    simp [eval, evalSymbol, h]
  · intro fuel s st envId h
    simp [eval, evalSymbol, h]

/-- Claim C10 witness: the clauses applied at concrete inputs — the
define step on the root store, locality of a set on a child entry, the
lookup after a set, and symbol resolution hits and misses. -/
theorem eval_define_spec_witness :
    eval 2 (.list [.symbol "define", .symbol "x", .integer 10]) store0 0 =
      evalDefine (eval 1) [.symbol "define", .symbol "x", .integer 10] store0 0 ∧
    evalDefine (eval 1) [.symbol "define", .symbol "x", .integer 10] store0 0 =
      some (.ok .void, envSet store0 0 "x" (.integer 10)) ∧
    (envSet (stFact ++ [envExtend 0]) 1 "n" (.integer 5))[0]? =
      (stFact ++ [envExtend 0])[0]? ∧
    envGet (envSet storeX 0 "x" (.integer 7)) 0 "x" = some (.integer 7) ∧
    eval 3 (.symbol "x") storeX 0 = some (.ok (.integer 10), storeX) ∧
    eval 3 (.symbol "zzz") storeX 0 =
      some (.error (.err "Unbound symbol: zzz"), storeX) := by
  refine ⟨?_, ?_, ?_, ?_, ?_, ?_⟩
  · exact eval_define_spec.1 1 [.symbol "x", .integer 10] store0 0
  · exact eval_define_spec.2.1 (eval 1) "x" (.integer 10) store0 store0 0
      (.integer 10) (by rfl)
  · exact eval_define_spec.2.2.1 (stFact ++ [envExtend 0]) 1 "n" (.integer 5) 0
      (by decide)
  · exact eval_define_spec.2.2.2.1 storeX 0 "x" (.integer 7)
      { vars := [("x", .integer 10)], parent := none } (by rfl)
  · exact eval_define_spec.2.2.2.2.1 2 "x" storeX 0 (.integer 10) (by rfl)
  · exact eval_define_spec.2.2.2.2.2.1 2 "zzz" storeX 0 (by rfl)

end LispRs
